import Mathlib

/-!
Verification of the RAG subsystem of the Student-Document-Management backend.

The Lean definitions below are a shallow embedding of the Python sources
`backend/app/rag.py`, `backend/app/rag_jobs.py` and `backend/app/vector_store.py`.
Pure Python functions become Lean functions; the mutable job store becomes
explicit state passing over an insertion-ordered association list (a model of a
Python `dict`); calls into external libraries (pypdf, python-docx, embedding
providers, the cross-encoder, the Supabase client) are parameters of the
embedding, of `Except`/`Bool` type, so that every possible outcome of the
external call is quantified over.
-/

deriving instance DecidableEq for Except

namespace StudentDocs

/-! ## Python string primitives used by the sources -/

/-- Characters treated as whitespace by Python `str.strip()` / `re` class
`\s` (the ASCII part, which is all the sources rely on). -/
def isPySpace (c : Char) : Bool :=
  c = ' ' ∨ c = '\t' ∨ c = '\n' ∨ c = '\x0d' ∨ c = '\x0b' ∨ c = '\x0c'

/-- Python `str.strip()` on the character list of a string. -/
def pyStripList (l : List Char) : List Char :=
  ((l.dropWhile isPySpace).reverse.dropWhile isPySpace).reverse

/-- Python `str.strip()`. -/
def pyStrip (s : String) : String :=
  String.mk (pyStripList s.data)

/-- Python `s[-n:]` for `n > 0`: the last `min n (length s)` characters. -/
def pyTakeRight (s : String) (n : Nat) : String :=
  String.mk (s.data.drop (s.data.length - n))

/-- Python `" ".join(parts)`. -/
def joinSpace : List String → String
  | [] => ""
  | [s] => s
  | s :: rest => s ++ " " ++ joinSpace rest

/-- Python `str.lower()` (ASCII case folding, which is all the sources
compare against). -/
def pyLower (s : String) : String :=
  String.mk (s.data.map Char.toLower)

/-- Python `s.endswith(suffix)`. -/
def pyEndsWith (s suffix : String) : Bool :=
  suffix.data.isSuffixOf s.data

/-! ## Job tracker — `backend/app/rag_jobs.py`, class `JobStore`

A Python job record is a dict that may lack keys (`update` on an unseen id
creates `{"doc_id": doc_id}` and only adds the supplied fields), so every
field other than `doc_id` is an `Option`.  `updated_at` is a logical clock
standing for `time.time()`. -/

structure JobRec where
  doc_id : String
  stage : Option String := none
  progress : Option Int := none
  message : Option String := none
  updated_at : Option Nat := none
  deriving Repr, DecidableEq

/-- The jobs dict `JobStore._jobs`: an insertion-ordered map. -/
def JobsMap := List (String × JobRec)

/-- Dict assignment `d[k] = v` (replace in place, else append). -/
def setEntry : List (String × JobRec) → String → JobRec → List (String × JobRec)
  | [], k, v => [(k, v)]
  | (k', v') :: rest, k, v =>
      if k' = k then (k, v) :: rest else (k', v') :: setEntry rest k v

/-- Dict lookup `d.get(k)`. -/
def lookupEntry : List (String × JobRec) → String → Option JobRec
  | [], _ => none
  | (k', v') :: rest, k => if k' = k then some v' else lookupEntry rest k

/-- `JobStore.start`. -/
def jobStart (st : List (String × JobRec)) (docId : String) (now : Nat) :
    List (String × JobRec) :=
  setEntry st docId
    { doc_id := docId
      stage := some "upload"
      progress := some 0
      message := some "Đã nhận tệp, chuẩn bị xử lý"
      updated_at := some now }

/-- Python `int(max(0, min(100, progress)))`. -/
def clampProgress (p : Int) : Int := max 0 (min 100 p)

/-- `JobStore.update`: `setdefault` then partial merge of the supplied
fields, progress clamped, `updated_at` always refreshed. -/
def jobUpdate (st : List (String × JobRec)) (docId : String)
    (stage? : Option String) (progress? : Option Int) (message? : Option String)
    (now : Nat) : List (String × JobRec) :=
  let job0 := (lookupEntry st docId).getD { doc_id := docId }
  let job1 := match stage? with
    | some s => { job0 with stage := some s }
    | none => job0
  let job2 := match progress? with
    | some p => { job1 with progress := some (clampProgress p) }
    | none => job1
  let job3 := match message? with
    | some m => { job2 with message := some m }
    | none => job2
  setEntry st docId { job3 with updated_at := some now }

/-- `JobStore.fail`. -/
def jobFail (st : List (String × JobRec)) (docId : String) (message : String)
    (now : Nat) : List (String × JobRec) :=
  jobUpdate st docId (some "failed") (some 100) (some message) now

/-- `JobStore.success`. -/
def jobSuccess (st : List (String × JobRec)) (docId : String) (now : Nat) :
    List (String × JobRec) :=
  jobUpdate st docId (some "indexed") (some 100) (some "Hoàn tất lập chỉ mục") now

/-- The placeholder dict `JobStore.get` returns for an unknown id
(it has no `updated_at` key). -/
def unknownJob (docId : String) : JobRec :=
  { doc_id := docId
    stage := some "unknown"
    progress := some 0
    message := some "Không có job" }

/-- `JobStore.get` (the `dict(...)` copy is identity in a pure model). -/
def jobGet (st : List (String × JobRec)) (docId : String) : JobRec :=
  (lookupEntry st docId).getD (unknownJob docId)

/-- One call into the job store, with arbitrary arguments. -/
inductive JobOp where
  | start (docId : String)
  | update (docId : String) (stage : Option String) (progress : Option Int)
      (message : Option String)
  | fail (docId : String) (message : String)
  | success (docId : String)
  deriving Repr

/-- Apply one call at logical time `now`. -/
def applyJobOp (st : List (String × JobRec)) (now : Nat) :
    JobOp → List (String × JobRec)
  | .start d => jobStart st d now
  | .update d s p m => jobUpdate st d s p m now
  | .fail d m => jobFail st d m now
  | .success d => jobSuccess st d now

/-- Apply a sequence of calls, the logical clock ticking once per call. -/
def applyJobOps (ops : List JobOp) (st : List (String × JobRec)) (now : Nat) :
    List (String × JobRec) :=
  match ops with
  | [] => st
  | op :: rest => applyJobOps rest (applyJobOp st now op) (now + 1)

/-! ## Chunker — `backend/app/rag.py`, `RAGEngine._split_text` -/

/-- One maximal whitespace run becomes a single space: the effect of
`re.sub(r"\s+", " ", text)`.  The flag records whether the previous
character was whitespace. -/
def collapseWsAux : Bool → List Char → List Char
  | _, [] => []
  | prevWs, c :: rest =>
    if isPySpace c then
      if prevWs then collapseWsAux true rest
      else ' ' :: collapseWsAux true rest
    else c :: collapseWsAux false rest

/-- `re.sub(r"\s+", " ", text).strip()`. -/
def cleanText (text : String) : String :=
  pyStrip (String.mk (collapseWsAux false text.data))

/-- The character class `[\.!?。！？;；:\n]` of the sentence-split regex. -/
def delimChar (c : Char) : Bool :=
  c = '.' ∨ c = '!' ∨ c = '?' ∨ c = '。' ∨ c = '！' ∨ c = '？' ∨
  c = ';' ∨ c = '；' ∨ c = ':' ∨ c = '\n'

/-- `re.split(r"(?<=[...])\s+", s)`: cut at every maximal whitespace run
whose first character is directly preceded by a delimiter character, the
run itself being discarded.  `skipWs = true` while consuming the matched
run; `acc` holds the current piece reversed. -/
def splitSentencesAux : Bool → List Char → List Char → List (List Char)
  | _, acc, [] => [acc.reverse]
  | true, acc, c :: rest =>
    if isPySpace c then splitSentencesAux true acc rest
    else splitSentencesAux false (c :: acc) rest
  | false, acc, c :: rest =>
    match acc with
    | p :: _ =>
      if isPySpace c ∧ delimChar p then
        acc.reverse :: splitSentencesAux true [] rest
      else splitSentencesAux false (c :: acc) rest
    | [] => splitSentencesAux false (c :: acc) rest

/-- The list comprehension
`[s.strip() for s in re.split(...) if s and s.strip()]`. -/
def sentencesOf (cleaned : String) : List String :=
  (splitSentencesAux false [] cleaned.data).filterMap fun piece =>
    let s := String.mk piece
    if s ≠ "" ∧ pyStrip s ≠ "" then some (pyStrip s) else none

/-- `chunk_size = max(200, int(self.settings.chunk_size))`. -/
def effChunkSize (csCfg : Int) : Nat := (max 200 csCfg).toNat

/-- `overlap = max(0, min(int(self.settings.chunk_overlap), chunk_size // 2))`. -/
def effOverlap (csCfg ovCfg : Int) : Nat :=
  (max 0 (min ovCfg ((effChunkSize csCfg : Int) / 2))).toNat

/-- The mutable locals of `_split_text`'s packing loop. -/
structure SplitState where
  chunks : List String
  current : List String
  currentLen : Nat
  deriving Repr, DecidableEq

/-- The inner function `flush_with_overlap`. -/
def flushWithOverlap (overlap : Nat) (st : SplitState) : SplitState :=
  if st.current = [] then st
  else
    let chunk := pyStrip (joinSpace st.current)
    let chunks' := if chunk ≠ "" then st.chunks ++ [chunk] else st.chunks
    if 0 < overlap ∧ chunks' ≠ [] then
      let keep := pyTakeRight chunk overlap
      { chunks := chunks', current := [keep], currentLen := keep.length }
    else
      { chunks := chunks', current := [], currentLen := 0 }

/-- One iteration of `for sent in sentences`.  Note the `else` branch
resets `current_len` to `len(sent)` only, even though `flush_with_overlap`
has just seeded `current` with the overlap text. -/
def packSentence (chunkSize overlap : Nat) (st : SplitState) (sent : String) :
    SplitState :=
  if st.currentLen + sent.length + 1 ≤ chunkSize then
    { st with
        current := st.current ++ [sent]
        currentLen := st.currentLen + sent.length + 1 }
  else
    let st' := flushWithOverlap overlap st
    { st' with
        current := st'.current ++ [sent]
        currentLen := sent.length }

/-- `RAGEngine._split_text`, with the configured `chunk_size` and
`chunk_overlap` as explicit arguments. -/
def splitText (csCfg ovCfg : Int) (text : String) : List String :=
  let chunkSize := effChunkSize csCfg
  let overlap := effOverlap csCfg ovCfg
  let cleaned := cleanText text
  if cleaned = "" then []
  else
    let sentences := sentencesOf cleaned
    let final :=
      flushWithOverlap overlap
        (sentences.foldl (packSentence chunkSize overlap) ⟨[], [], 0⟩)
    if final.chunks = [] ∧ cleaned ≠ "" then
      [String.mk (cleaned.data.take chunkSize)]
    else final.chunks

/-! ## Text extractor — `backend/app/rag.py`,
`RAGEngine._extract_text` / `_extract_pdf` / `_extract_docx`

File bytes are `List Nat` (byte values).  pypdf's `PdfReader` and
python-docx's `Document` are external parsers and appear as parameters:
an `Except.error` value is the parser raising. -/

/-- Python `l[:k]` (list/str slicing with a possibly negative bound). -/
def pyTake {α : Type} (l : List α) (k : Int) : List α :=
  if 0 ≤ k then l.take k.toNat else l.take ((l.length : Int) + k).toNat

/-- A UTF-8 continuation byte. -/
def isCont (b : Nat) : Bool := 0x80 ≤ b ∧ b ≤ 0xBF

/-- Allowed second byte of a three-byte sequence (excludes overlong forms
and surrogates, as CPython does). -/
def cont3Ok (b1 b2 : Nat) : Bool :=
  if b1 = 0xE0 then 0xA0 ≤ b2 ∧ b2 ≤ 0xBF
  else if b1 = 0xED then 0x80 ≤ b2 ∧ b2 ≤ 0x9F
  else isCont b2

/-- Allowed second byte of a four-byte sequence (excludes overlong forms
and code points beyond U+10FFFF). -/
def cont4Ok (b1 b2 : Nat) : Bool :=
  if b1 = 0xF0 then 0x90 ≤ b2 ∧ b2 ≤ 0xBF
  else if b1 = 0xF4 then 0x80 ≤ b2 ∧ b2 ≤ 0x8F
  else isCont b2

/-- Worker for `utf8DecodeIgnore`.  The fuel argument only forces
termination: every step consumes at least one byte, so starting the fuel
at the byte count never cuts the input short. -/
def utf8DecodeIgnoreAux : Nat → List Nat → List Char
  | 0, _ => []
  | _, [] => []
  | fuel + 1, b1 :: rest =>
    if b1 < 0x80 then Char.ofNat b1 :: utf8DecodeIgnoreAux fuel rest
    else if 0xC2 ≤ b1 ∧ b1 ≤ 0xDF then
      match rest with
      | [] => []
      | b2 :: rest2 =>
        if isCont b2 then
          Char.ofNat ((b1 - 0xC0) * 64 + (b2 - 0x80)) :: utf8DecodeIgnoreAux fuel rest2
        else utf8DecodeIgnoreAux fuel rest
    else if 0xE0 ≤ b1 ∧ b1 ≤ 0xEF then
      match rest with
      | [] => []
      | b2 :: rest2 =>
        if cont3Ok b1 b2 then
          match rest2 with
          | [] => []
          | b3 :: rest3 =>
            if isCont b3 then
              Char.ofNat ((b1 - 0xE0) * 4096 + (b2 - 0x80) * 64 + (b3 - 0x80)) ::
                utf8DecodeIgnoreAux fuel rest3
            else utf8DecodeIgnoreAux fuel rest2
        else utf8DecodeIgnoreAux fuel rest
    else if 0xF0 ≤ b1 ∧ b1 ≤ 0xF4 then
      match rest with
      | [] => []
      | b2 :: rest2 =>
        if cont4Ok b1 b2 then
          match rest2 with
          | [] => []
          | b3 :: rest3 =>
            if isCont b3 then
              match rest3 with
              | [] => []
              | b4 :: rest4 =>
                if isCont b4 then
                  Char.ofNat ((b1 - 0xF0) * 262144 + (b2 - 0x80) * 4096 +
                      (b3 - 0x80) * 64 + (b4 - 0x80)) :: utf8DecodeIgnoreAux fuel rest4
                else utf8DecodeIgnoreAux fuel rest3
            else utf8DecodeIgnoreAux fuel rest2
        else utf8DecodeIgnoreAux fuel rest
    else utf8DecodeIgnoreAux fuel rest
/-- Python `bytes.decode('utf-8', errors='ignore')`: decode, dropping
invalid bytes and restarting at the offending byte, and dropping a
truncated final sequence. -/
def utf8DecodeIgnore (l : List Nat) : List Char :=
  utf8DecodeIgnoreAux l.length l

/-- The outcome pypdf reports for one page: `Except.error` is
`page.extract_text()` raising (the page is skipped), `Except.ok none` is
it returning `None` (mapped to `""` by the `or ""`). -/
def PageOutcome := Except Unit (Option String)

/-- `RAGEngine._extract_pdf`: parser construction errors propagate, page
extraction errors skip the page, page texts are joined with newlines. -/
def extractPdf (pdfParse : List Nat → Except String (List (Except Unit (Option String))))
    (fileBytes : List Nat) : Except String String :=
  match pdfParse fileBytes with
  | .error e => .error e
  | .ok pages =>
    .ok (String.intercalate "\n" (pages.filterMap fun pg =>
      match pg with
      | .ok t => some (t.getD "")
      | .error _ => none))

/-- `RAGEngine._extract_docx`: parser errors propagate, paragraph texts
are joined with newlines. -/
def extractDocx (docxParse : List Nat → Except String (List String))
    (fileBytes : List Nat) : Except String String :=
  match docxParse fileBytes with
  | .error e => .error e
  | .ok paras => .ok (String.intercalate "\n" paras)

/-- `RAGEngine._extract_text`.  The `.txt`/`.md` branch and the
unknown-extension branch both run `file_bytes.decode('utf-8',
errors='ignore')` inside a `try` whose handler returns `""`; the decode
with `errors='ignore'` cannot raise, so both branches return the decode. -/
def extractText (pdfParse : List Nat → Except String (List (Except Unit (Option String))))
    (docxParse : List Nat → Except String (List String))
    (fileBytes : List Nat) (fileName : String) : Except String String :=
  let name := pyLower fileName
  if pyEndsWith name ".pdf" then extractPdf pdfParse fileBytes
  else if pyEndsWith name ".docx" then extractDocx docxParse fileBytes
  else if pyEndsWith name ".txt" ∨ pyEndsWith name ".md" then
    .ok (String.mk (utf8DecodeIgnore fileBytes))
  else
    .ok (String.mk (utf8DecodeIgnore fileBytes))

/-- pypdf's behaviour on input that is not a PDF at all: `PdfReader`
construction raises `PdfReadError("EOF marker not found")` before any page
is read when the stream contains no `%%EOF` marker — in particular on the
empty byte string. -/
def pypdfOnGarbage : List Nat → Except String (List (Except Unit (Option String))) :=
  fun _ => .error "EOF marker not found"

/-- python-docx's behaviour on input that is not a zip archive: `Document`
construction raises `BadZipFile`. -/
def docxOnGarbage : List Nat → Except String (List String) :=
  fun _ => .error "File is not a zip file"

/-! ## Supabase vector store — `backend/app/vector_store.py`,
class `SupabaseVectorStore`

The `rag_chunks` table is a list of rows; the PostgREST query chain
`select → eq → order → limit` is given its declarative meaning; a network
or server error from `execute()` is the `dbFail` flag.  Embedding vectors
carry no arithmetic in any claim, so a float vector is `List ℚ`. -/

structure SupaRow where
  document_id : Option String := none
  subject_id : Option String := none
  user_id : Option String := none
  file_name : String := ""
  chunk_index : Int := 0
  content : Option String := none
  embedding : List ℚ := []
  deriving Repr, DecidableEq

/-- The helper `_canon_str` of `SupabaseVectorStore.add_chunks`. -/
def canonStr (v : Option String) : Option String :=
  v.bind fun s => let t := pyStrip s; if t = "" then none else some t

/-- `SupabaseVectorStore.add_chunks`: build one row per (chunk, embedding)
pair and insert them all; an insert error is re-raised wrapped.  `uuidCanon`
is `uuid.UUID` canonicalization (`none` = it raised → user_id stored as null);
`insertOutcome` is the external `insert(...).execute()` call. -/
def svsAddChunks (uuidCanon : String → Option String)
    (insertOutcome : Except String Unit) (store : List SupaRow)
    (documentId : String) (subjectId userId : Option String)
    (fileName : String) (chunks : List String) (embeddings : List (List ℚ)) :
    Except String (List SupaRow) :=
  let userUuid : Option String := userId.bind fun u =>
    if u = "" then none else uuidCanon u
  let didStr := canonStr (some documentId)
  let sidStr := canonStr subjectId
  let rows := ((chunks.zip embeddings).enum).map fun te =>
    ({ document_id := didStr
       subject_id := sidStr
       user_id := userUuid
       file_name := fileName
       chunk_index := (te.1 : Int)
       content := some te.2.1
       embedding := te.2.2 } : SupaRow)
  if rows = [] then .ok store
  else
    match insertOutcome with
    | .ok _ => .ok (store ++ rows)
    | .error e => .error ("Supabase insert into rag_chunks failed: " ++ e)

/-- `max(1, min(limit, 500))`. -/
def clampLimit (limit : Int) : Nat := (max 1 (min limit 500)).toNat

/-- Ascending order on `chunk_index`, the meaning of
`.order("chunk_index", desc=False)`. -/
def rowLE (a b : SupaRow) : Prop := a.chunk_index ≤ b.chunk_index

instance : DecidableRel rowLE := fun a b => Int.decLe a.chunk_index b.chunk_index

/-- The server-side sort (one refinement of it: ties may come back in any
order; no claim depends on tie order). -/
def sortByChunkIndex (l : List SupaRow) : List SupaRow :=
  l.insertionSort rowLE

/-- `SupabaseVectorStore.get_chunks_by_document`.  `dbFail = true` is the
`execute()` call raising, which the surrounding `try` turns into `[]`. -/
def getChunksByDocument (tbl : List SupaRow) (dbFail : Bool)
    (documentId : String) (limit : Int) : List String :=
  let did := pyStrip documentId
  if did = "" then []
  else if dbFail then []
  else
    let rows := sortByChunkIndex (tbl.filter fun r => r.document_id = some did)
    let rows := rows.take (clampLimit limit)
    rows.filterMap fun r =>
      match r.content with
      | some c => if pyStrip c ≠ "" then some c else none
      | none => none

/-! ## Ingestion orchestrator — `backend/app/rag.py`,
`RAGEngine.index_document`

Engine state: the job dict, a logical clock, and the two vector-store
backends.  External calls (embedding provider, chroma `collection.add`,
supabase insert) are parameters; every `job_store.*` call inside
`index_document` sits in a `try/except: pass`, and since the pure job
model never raises, the guard is inert. -/

structure IndexResult where
  ok : Bool
  chunks : Nat
  message : Option String := none
  deriving Repr, DecidableEq

/-- An entry of the chroma collection (id, text, embedding; the metadata
dict is carried as built by `index_document`). -/
structure ChromaEntry where
  id : String
  document : String
  meta_document_id : String
  meta_subject_id : String
  meta_user_id : String
  meta_file_name : String
  meta_file_ext : Option String := none
  meta_tags : Option (List String) := none
  meta_author : Option String := none
  meta_created_at : Option String := none
  meta_file_url : Option String := none
  meta_source : Option String := none
  embedding : List ℚ := []
  deriving Repr, DecidableEq

/-- `lower.split('.')[-1] if '.' in lower else ''`. -/
def lastDotSegment (s : String) : String :=
  if s.data.contains '.' then (s.splitOn ".").getLastD "" else ""

/-- Caller-supplied `extra_metadata` (`none` = not a dict / absent;
each field `none` = key absent). -/
structure ExtraMeta where
  tags : Option (List String) := none
  author : Option String := none
  created_at : Option String := none
  file_url : Option String := none
  deriving Repr, DecidableEq

structure EngineState where
  jobs : List (String × JobRec)
  clock : Nat
  chroma : List ChromaEntry
  supa : List SupaRow
  deriving Repr

/-- All external collaborators of `index_document`, as parameters of the
embedding. -/
structure EngineExt where
  pdfParse : List Nat → Except String (List (Except Unit (Option String)))
  docxParse : List Nat → Except String (List String)
  /-- The selected `_embed_texts` provider applied to all chunk texts. -/
  embed : List String → Except String (List (List ℚ))
  /-- `uuid.uuid4().hex[:8]` for the i-th chunk id. -/
  uuidHex : Nat → String
  /-- `uuid.UUID` canonicalization used by the supabase backend. -/
  uuidCanon : String → Option String
  /-- Outcome of chroma `collection.add`. -/
  chromaAdd : Except String Unit
  /-- Outcome of the supabase `insert(...).execute()`. -/
  supaInsert : Except String Unit

/-- `RAGEngine.index_document`.  Returns the Python result
(`Except.error` = an exception propagating to the caller) and the state
after the call. -/
def indexDocument (csCfg ovCfg : Int) (storeBackend : String) (ext : EngineExt)
    (documentId : String) (subjectId userId : Option String)
    (fileBytes : List Nat) (fileName : String) (extraMeta : Option ExtraMeta)
    (st : EngineState) : Except String IndexResult × EngineState :=
  -- job_store.update(document_id, stage="chunking", progress=10, ...)
  let st := { st with
    jobs := jobUpdate st.jobs documentId (some "chunking") (some 10)
      (some "Đang tách đoạn (chunking)") st.clock
    clock := st.clock + 1 }
  match extractText ext.pdfParse ext.docxParse fileBytes fileName with
  | .error e => (.error e, st)          -- extraction error propagates
  | .ok text =>
  if pyStrip text = "" then
    let st := { st with
      jobs := jobFail st.jobs documentId "Không trích xuất được nội dung" st.clock
      clock := st.clock + 1 }
    (.ok { ok := false, chunks := 0, message := some "No text extracted" }, st)
  else
    let chunks := splitText csCfg ovCfg text
    let st := { st with
      jobs := jobUpdate st.jobs documentId (some "embedding") (some 40)
        (some ("Đang tạo embedding cho " ++ toString chunks.length ++ " đoạn"))
        st.clock
      clock := st.clock + 1 }
    let ids := chunks.enum.map fun ci =>
      documentId ++ "-" ++ toString ci.1 ++ "-" ++ ext.uuidHex ci.1
    let fileExt := lastDotSegment (pyLower fileName)
    let source : Option String := extraMeta.map fun em =>
      if (em.file_url.getD "") ≠ "" then "url" else "local"
    let documents := chunks
    match ext.embed documents with
    | .error e =>
      let st := { st with
        jobs := jobFail st.jobs documentId ("Tạo embedding thất bại: " ++ e) st.clock
        clock := st.clock + 1 }
      (.error e, st)
    | .ok embeddings =>
      if storeBackend = "chroma" then
        match ext.chromaAdd with
        | .error e =>
          let st := { st with
            jobs := jobFail st.jobs documentId ("Lưu vào Chroma thất bại: " ++ e) st.clock
            clock := st.clock + 1 }
          (.error e, st)
        | .ok _ =>
          let entries := ((ids.zip documents).zip embeddings).map fun ide =>
            ({ id := ide.1.1
               document := ide.1.2
               meta_document_id := documentId
               meta_subject_id := subjectId.getD ""
               meta_user_id := userId.getD ""
               meta_file_name := fileName
               meta_file_ext := if fileExt ≠ "" then some fileExt else none
               meta_tags := extraMeta.bind (·.tags)
               meta_author := extraMeta.bind (·.author)
               meta_created_at := extraMeta.bind (·.created_at)
               meta_file_url := extraMeta.bind (·.file_url)
               meta_source := source
               embedding := ide.2 } : ChromaEntry)
          let st := { st with chroma := st.chroma ++ entries }
          let st := { st with
            jobs := jobSuccess st.jobs documentId st.clock
            clock := st.clock + 1 }
          (.ok { ok := true, chunks := chunks.length }, st)
      else
        let st := { st with
          jobs := jobUpdate st.jobs documentId (some "storing") (some 70)
            (some "Đang lưu embeddings vào vector store") st.clock
          clock := st.clock + 1 }
        match svsAddChunks ext.uuidCanon ext.supaInsert st.supa documentId
            subjectId userId fileName documents embeddings with
        | .error e =>
          let st := { st with
            jobs := jobFail st.jobs documentId ("Lưu vào Supabase thất bại: " ++ e) st.clock
            clock := st.clock + 1 }
          (.error ("RAG Supabase add_chunks failed for document " ++ documentId ++
            ": " ++ e), st)
        | .ok supa' =>
          let st := { st with supa := supa' }
          let st := { st with
            jobs := jobSuccess st.jobs documentId st.clock
            clock := st.clock + 1 }
          (.ok { ok := true, chunks := chunks.length }, st)

/-! ## Re-ranker — `backend/app/rag.py`, `RAGEngine._maybe_rerank`

`_maybe_rerank` manipulates plain Python values: each candidate is a dict.
`PyVal` models just enough of Python's data model for the function body —
iterating a value (`(*pair, score)` unpacks a dict into its keys), truthiness,
`.get`, and subscript assignment (which only dicts support). -/

inductive PyVal where
  | str (s : String)
  | num (q : ℚ)
  | dict (fields : List (String × PyVal))
  deriving Repr

/-- Python truthiness for the values above. -/
def pyTruthy : PyVal → Bool
  | .str s => s ≠ ""
  | .num q => q ≠ 0
  | .dict fs => !fs.isEmpty

/-- `x or ""` (Python `get` returning `None`/falsy is replaced by `""`). -/
def orEmptyStr : Option PyVal → PyVal
  | none => .str ""
  | some v => if pyTruthy v then v else .str ""

def lookupField : List (String × PyVal) → String → Option PyVal
  | [], _ => none
  | (k, v) :: rest, key => if k = key then some v else lookupField rest key

/-- `o.get("text") or ""`; a non-dict has no `.get` (AttributeError). -/
def pyGetTextOr : PyVal → Except String PyVal
  | .dict fs => .ok (orEmptyStr (lookupField fs "text"))
  | _ => .error "AttributeError: object has no attribute get"

/-- Iterating a value, as `(*pair, float(score))` does: a dict yields its
keys, a string its characters, a number raises TypeError. -/
def pyIterate : PyVal → Except String (List PyVal)
  | .dict fs => .ok (fs.map fun kv => PyVal.str kv.1)
  | .str s => .ok (s.data.map fun c => PyVal.str (String.mk [c]))
  | .num _ => .error "TypeError: not iterable"

/-- `scored` elements: the iterated elements of the candidate plus the
score appended; `scored.sort(key=lambda x: x[-1], reverse=True)` sorts on
the last tuple slot, i.e. the score. -/
def scoredGE (a b : List PyVal × ℚ) : Prop := b.2 ≤ a.2

instance : DecidableRel scoredGE := fun a b => inferInstanceAs (Decidable (b.2 ≤ a.2))

/-- `x[0]` of one sorted tuple: its first element (the score itself when
the candidate iterated to nothing). -/
def tupleHead (t : List PyVal × ℚ) : PyVal := t.1.headD (.num t.2)

/-- `o["rerank_score"] = i` for each reranked element: subscript
assignment succeeds only on dicts (the write itself is unobservable in the
claim, so it is not threaded). -/
def assignRerankScores : List PyVal → Except String Unit
  | [] => .ok ()
  | o :: rest =>
    match o with
    | .dict _ => assignRerankScores rest
    | _ => .error "TypeError: object does not support item assignment"

/-- The body of `_maybe_rerank`'s `try`.  `loadModel` is the lazy
`CrossEncoder(...)` construction, `predict` the external
`cross_encoder.predict(pairs)` call. -/
def maybeRerankCore (loadModel : Except String Unit)
    (predict : List (String × PyVal) → Except String (List ℚ))
    (rerankEnabled : Bool) (query : String) (outs : List PyVal) (topK : Int) :
    Except String (List PyVal) :=
  if rerankEnabled = false ∨ outs.length ≤ 1 then .ok (pyTake outs topK)
  else
    match loadModel with
    | .error e => .error e
    | .ok _ =>
      match outs.mapM (fun o => (pyGetTextOr o).map fun t => (query, t)) with
      | .error e => .error e
      | .ok pairs =>
        match predict pairs with
        | .error e => .error e
        | .ok scores =>
          match (outs.zip scores).mapM
              (fun p => (pyIterate p.1).map fun elems => (elems, p.2)) with
          | .error e => .error e
          | .ok scored =>
            let sorted := scored.insertionSort scoredGE
            let reranked := pyTake (sorted.map tupleHead) (max 1 topK)
            match assignRerankScores reranked with
            | .error e => .error e
            | .ok _ => .ok reranked

/-- `RAGEngine._maybe_rerank`: the whole body is inside
`try: ... except: return outs[:top_k]`. -/
def maybeRerank (loadModel : Except String Unit)
    (predict : List (String × PyVal) → Except String (List ℚ))
    (rerankEnabled : Bool) (query : String) (outs : List PyVal) (topK : Int) :
    List PyVal :=
  match maybeRerankCore loadModel predict rerankEnabled query outs topK with
  | .ok r => r
  | .error _ => pyTake outs topK

/-! ## Answer synthesizer — `backend/app/rag.py`, `RAGEngine.answer` and
`RAGEngine._simple_extractive_answer` -/

/-- `RAGEngine._simple_extractive_answer`: fixed preface, then the first
two contexts joined by a blank line. -/
def simpleExtractiveAnswer (query : String) (contexts : List String) : String :=
  let joined := String.intercalate "\n\n" (pyTake contexts 2)
  "(Không có LLM cục bộ; trả lời theo ngữ cảnh gần nhất)\n\n" ++ joined

/-- The grounded prompt built at the top of `answer` (computed before
provider dispatch, unused on the fallback path). -/
def buildPrompt (query : String) (contexts : List String) : String :=
  "Bạn là trợ lý hữu ích. Chỉ sử dụng NGỮ CẢNH được cung cấp để trả lời. " ++
  "Nếu không có trong ngữ cảnh, hãy nói bạn không biết. Trả lời bằng TIẾNG VIỆT.\n\n" ++
  "Câu hỏi: " ++ query ++ "\n\n" ++
  "Ngữ cảnh:\n" ++ String.intercalate "\n---\n" contexts ++ "\n\nTrả lời:"

/-- `(self.settings.llm_provider or "none").lower()`. -/
def normProvider (llmProvider : Option String) : String :=
  let raw := llmProvider.getD ""
  pyLower (if raw = "" then "none" else raw)

/-- `RAGEngine.answer`.  Each remote call is a parameter returning the
message content (`Except.error` = the call raised, `Except.ok none` = it
returned a missing/None content).  A missing credential raises inside the
provider's own `try`, so it also degrades to the extractive fallback. -/
def answer (llmProvider : Option String) (openaiKey geminiKey : Option String)
    (openaiCall geminiCall ollamaCall : String → Except String (Option String))
    (query : String) (contexts : List String) : String :=
  let provider := normProvider llmProvider
  let prompt := buildPrompt query contexts
  if provider = "openai" then
    if (openaiKey.getD "") = "" then simpleExtractiveAnswer query contexts
    else
      match openaiCall prompt with
      | .ok content => pyStrip (content.getD "")
      | .error _ => simpleExtractiveAnswer query contexts
  else if provider = "gemini" then
    if (geminiKey.getD "") = "" then simpleExtractiveAnswer query contexts
    else
      match geminiCall prompt with
      | .ok content => pyStrip (content.getD "")
      | .error _ => simpleExtractiveAnswer query contexts
  else if provider = "ollama" then
    match ollamaCall prompt with
    | .ok (some content) =>
      if pyStrip content ≠ "" then pyStrip content
      else simpleExtractiveAnswer query contexts
    | .ok none => simpleExtractiveAnswer query contexts
    | .error _ => simpleExtractiveAnswer query contexts
  else simpleExtractiveAnswer query contexts

/-! ## Concrete engine instances used by witnesses -/

/-- A concrete external-collaborator bundle: text parsing on garbage
inputs, an embedding provider that always raises "boom", successful store
backends. -/
def wExt : EngineExt :=
  { pdfParse := pypdfOnGarbage
    docxParse := docxOnGarbage
    embed := fun _ => .error "boom"
    uuidHex := fun _ => "abcd1234"
    uuidCanon := fun _ => none
    chromaAdd := .ok ()
    supaInsert := .ok () }

/-- A fresh engine state. -/
def wState : EngineState := { jobs := [], clock := 0, chroma := [], supa := [] }

/-! ## Helper lemmas -/

lemma lookupEntry_setEntry_self (st : List (String × JobRec)) (k : String)
    (v : JobRec) : lookupEntry (setEntry st k v) k = some v := by
  induction st with
  | nil => simp [setEntry, lookupEntry]
  | cons hd t ih =>
    obtain ⟨k', v'⟩ := hd
    by_cases hk : k' = k
    · simp [setEntry, hk, lookupEntry]
    · simp [setEntry, hk, lookupEntry, ih]

lemma lookupEntry_setEntry_ne (st : List (String × JobRec)) (k k' : String)
    (v : JobRec) (h : k ≠ k') :
    lookupEntry (setEntry st k v) k' = lookupEntry st k' := by
  induction st with
  | nil => simp [setEntry, lookupEntry, h]
  | cons hd t ih =>
    obtain ⟨k₀, v₀⟩ := hd
    by_cases hk : k₀ = k
    · simp [setEntry, hk, lookupEntry, h]
    · simp [setEntry, hk, lookupEntry, ih]

lemma clampProgress_nonneg (p : Int) : 0 ≤ clampProgress p := le_max_left _ _

lemma clampProgress_le (p : Int) : clampProgress p ≤ 100 :=
  max_le (by norm_num) (min_le_left _ _)

/-- The record a `jobUpdate` leaves for its own id. -/
lemma jobGet_jobUpdate_self (st : List (String × JobRec)) (d : String)
    (s? : Option String) (p? : Option Int) (m? : Option String) (now : Nat) :
    jobGet (jobUpdate st d s? p? m? now) d =
      { (let job0 := (lookupEntry st d).getD { doc_id := d }
         let job1 := match s? with
           | some s => { job0 with stage := some s }
           | none => job0
         let job2 := match p? with
           | some p => { job1 with progress := some (clampProgress p) }
           | none => job1
         match m? with
         | some m => { job2 with message := some m }
         | none => job2) with updated_at := some now } := by
  simp [jobGet, jobUpdate, lookupEntry_setEntry_self]

lemma jobGet_jobFail_stage (st : List (String × JobRec)) (d m : String)
    (now : Nat) : (jobGet (jobFail st d m now) d).stage = some "failed" := by
  simp [jobFail, jobGet_jobUpdate_self]

lemma jobGet_jobFail_message (st : List (String × JobRec)) (d m : String)
    (now : Nat) : (jobGet (jobFail st d m now) d).message = some m := by
  simp [jobFail, jobGet_jobUpdate_self]

/-- Invariant for C6: the record for `d` exists and carries an in-range
progress value. -/
def ProgOk (st : List (String × JobRec)) (d : String) : Prop :=
  ∃ r, lookupEntry st d = some r ∧ ∃ p, r.progress = some p ∧ 0 ≤ p ∧ p ≤ 100

lemma progOk_jobStart (st : List (String × JobRec)) (d d' : String) (now : Nat)
    (h : ProgOk st d) : ProgOk (jobStart st d' now) d := by
  by_cases hd : d' = d
  · subst hd
    exact ⟨_, lookupEntry_setEntry_self .., 0, rfl, le_refl _, by norm_num⟩
  · obtain ⟨r, hr, p, hp, h0, h1⟩ := h
    exact ⟨r, by rwa [jobStart, lookupEntry_setEntry_ne _ _ _ _ hd], p, hp, h0, h1⟩

lemma progOk_jobUpdate (st : List (String × JobRec)) (d d' : String)
    (s? : Option String) (p? : Option Int) (m? : Option String) (now : Nat)
    (h : ProgOk st d) : ProgOk (jobUpdate st d' s? p? m? now) d := by
  obtain ⟨r, hr, p, hp, h0, h1⟩ := h
  by_cases hd : d' = d
  · subst hd
    cases p? with
    | none =>
      refine ⟨_, lookupEntry_setEntry_self .., p, ?_, h0, h1⟩
      cases s? <;> cases m? <;> simp [jobUpdate, hr, hp]
    | some q =>
      refine ⟨_, lookupEntry_setEntry_self .., clampProgress q, ?_,
        clampProgress_nonneg _, clampProgress_le _⟩
      cases s? <;> cases m? <;> simp [jobUpdate, hr]
  · refine ⟨r, ?_, p, hp, h0, h1⟩
    unfold jobUpdate
    rwa [lookupEntry_setEntry_ne _ _ _ _ hd]

lemma progOk_applyJobOp (st : List (String × JobRec)) (now : Nat) (op : JobOp)
    (d : String) (h : ProgOk st d) : ProgOk (applyJobOp st now op) d := by
  cases op with
  | start d' => exact progOk_jobStart st d d' now h
  | update d' s p m => exact progOk_jobUpdate st d d' s p m now h
  | fail d' m =>
    exact progOk_jobUpdate st d d' (some "failed") (some 100) (some m) now h
  | success d' =>
    exact progOk_jobUpdate st d d' (some "indexed") (some 100)
      (some "Hoàn tất lập chỉ mục") now h

lemma progOk_applyJobOps (ops : List JobOp) (st : List (String × JobRec))
    (now : Nat) (d : String) (h : ProgOk st d) :
    ProgOk (applyJobOps ops st now) d := by
  induction ops generalizing st now with
  | nil => exact h
  | cons op rest ih => exact ih _ _ (progOk_applyJobOp st now op d h)

/-! ## C6 -/

/-- C6: for every document id, after `start` followed by any sequence of
`update`, `fail`, and `success` calls (also further `start`s) with
arbitrary arguments, the job record's `progress` field is an integer
within [0, 100]. -/
theorem progress_always_in_range (d : String) (st0 : List (String × JobRec))
    (n0 n1 : Nat) (ops : List JobOp) :
    ∃ p : Int,
      (jobGet (applyJobOps ops (jobStart st0 d n0) n1) d).progress = some p ∧
      0 ≤ p ∧ p ≤ 100 := by
  have hstart : ProgOk (jobStart st0 d n0) d :=
    ⟨_, lookupEntry_setEntry_self .., 0, rfl, le_refl _, by norm_num⟩
  obtain ⟨r, hr, p, hp, h0, h1⟩ := progOk_applyJobOps ops _ n1 d hstart
  exact ⟨p, by simp [jobGet, hr, hp], h0, h1⟩

/-! ## C10 -/

/-- C10: `update` on an id that was never `start`ed creates a partial
record holding exactly the supplied fields (plus `doc_id` and
`updated_at`), and `get` returns that partial record — which is never the
unknown-id placeholder (the placeholder has no `updated_at` key). -/
theorem update_unknown_id_partial_record (st : List (String × JobRec))
    (d : String) (s? : Option String) (p? : Option Int) (m? : Option String)
    (now : Nat) (h : lookupEntry st d = none) :
    jobGet (jobUpdate st d s? p? m? now) d =
      { doc_id := d
        stage := s?
        progress := p?.map clampProgress
        message := m?
        updated_at := some now } ∧
    jobGet (jobUpdate st d s? p? m? now) d ≠ unknownJob d := by
  have hrec : jobGet (jobUpdate st d s? p? m? now) d =
      { doc_id := d
        stage := s?
        progress := p?.map clampProgress
        message := m?
        updated_at := some now } := by
    rw [jobGet_jobUpdate_self]
    cases s? <;> cases p? <;> cases m? <;> simp [h]
  refine ⟨hrec, ?_⟩
  rw [hrec]
  intro hcontr
  have := congrArg JobRec.updated_at hcontr
  simp [unknownJob] at this

/-- Witness for C10 at a concrete input: a fresh id, update supplying only
`progress = 142` (clamped to 100). -/
theorem update_unknown_id_partial_record_witness :
    lookupEntry [] "doc-1" = none ∧
    (jobGet (jobUpdate [] "doc-1" none (some 142) none 7) "doc-1" =
        { doc_id := "doc-1"
          stage := none
          progress := some 100
          message := none
          updated_at := some 7 } ∧
      jobGet (jobUpdate [] "doc-1" none (some 142) none 7) "doc-1" ≠
        unknownJob "doc-1") := by
  have h : lookupEntry [] "doc-1" = none := rfl
  have := update_unknown_id_partial_record [] "doc-1" none (some 142) none 7 h
  refine ⟨h, ?_, this.2⟩
  rw [this.1]
  decide

/-! ## C3 -/

/-- C3: for every text whose whitespace-collapsed, trimmed form is
non-empty, `_split_text` returns a non-empty sequence of chunks. -/
theorem splitText_nonempty (csCfg ovCfg : Int) (text : String)
    (h : cleanText text ≠ "") : splitText csCfg ovCfg text ≠ [] := by
  intro hnil
  unfold splitText at hnil
  rw [if_neg h] at hnil
  dsimp only at hnil
  split at hnil
  · exact List.cons_ne_nil _ _ hnil
  · next hcond => exact hcond ⟨hnil, h⟩

/-- Witness for C3: "hello" cleans to itself and yields a chunk. -/
theorem splitText_nonempty_witness :
    cleanText "hello" ≠ "" ∧ splitText 850 150 "hello" ≠ [] :=
  ⟨by decide, splitText_nonempty 850 150 "hello" (by decide)⟩

/-! ## C5 -/

/-- C5: when extraction succeeds but yields empty or whitespace-only text,
`index_document` returns `ok := false, chunks := 0` without raising, the
job ends at stage "failed", and neither vector store changes. -/
theorem indexDocument_empty_text (csCfg ovCfg : Int) (backend : String)
    (ext : EngineExt) (d : String) (sid uid : Option String)
    (bytes : List Nat) (name : String) (em : Option ExtraMeta)
    (st : EngineState) (text : String)
    (hextract : extractText ext.pdfParse ext.docxParse bytes name = .ok text)
    (hempty : pyStrip text = "") :
    (indexDocument csCfg ovCfg backend ext d sid uid bytes name em st).1 =
      .ok { ok := false, chunks := 0, message := some "No text extracted" } ∧
    (jobGet (indexDocument csCfg ovCfg backend ext d sid uid bytes name em st).2.jobs
        d).stage = some "failed" ∧
    (jobGet (indexDocument csCfg ovCfg backend ext d sid uid bytes name em st).2.jobs
        d).message = some "Không trích xuất được nội dung" ∧
    (indexDocument csCfg ovCfg backend ext d sid uid bytes name em st).2.chroma =
      st.chroma ∧
    (indexDocument csCfg ovCfg backend ext d sid uid bytes name em st).2.supa =
      st.supa := by
  unfold indexDocument
  rw [hextract]
  simp only [hempty, if_pos rfl]
  refine ⟨rfl, ?_, ?_, rfl, rfl⟩
  · exact jobGet_jobFail_stage ..
  · exact jobGet_jobFail_message ..

/-- Witness for C5: empty bytes with file name "empty.txt". -/
theorem indexDocument_empty_text_witness :
    extractText wExt.pdfParse wExt.docxParse [] "empty.txt" = .ok "" ∧
    pyStrip "" = "" ∧
    (indexDocument 850 150 "chroma" wExt "doc-w5" none none [] "empty.txt" none
        wState).1 =
      .ok { ok := false, chunks := 0, message := some "No text extracted" } ∧
    (jobGet (indexDocument 850 150 "chroma" wExt "doc-w5" none none [] "empty.txt"
        none wState).2.jobs "doc-w5").stage = some "failed" := by
  have h := indexDocument_empty_text 850 150 "chroma" wExt "doc-w5" none none
    [] "empty.txt" none wState "" (by decide) (by decide)
  exact ⟨by decide, by decide, h.1, h.2.1⟩

/-! ## C4 -/

/-- C4: an exception from the embedding provider marks the job "failed"
with the error detail in the message, re-raises the same exception to the
caller, and leaves both vector-store backends unchanged. -/
theorem indexDocument_embed_failure (csCfg ovCfg : Int) (backend : String)
    (ext : EngineExt) (d : String) (sid uid : Option String)
    (bytes : List Nat) (name : String) (em : Option ExtraMeta)
    (st : EngineState) (text e : String)
    (hextract : extractText ext.pdfParse ext.docxParse bytes name = .ok text)
    (hne : pyStrip text ≠ "")
    (hembed : ext.embed (splitText csCfg ovCfg text) = .error e) :
    (indexDocument csCfg ovCfg backend ext d sid uid bytes name em st).1 =
      .error e ∧
    (jobGet (indexDocument csCfg ovCfg backend ext d sid uid bytes name em st).2.jobs
        d).stage = some "failed" ∧
    (jobGet (indexDocument csCfg ovCfg backend ext d sid uid bytes name em st).2.jobs
        d).message = some ("Tạo embedding thất bại: " ++ e) ∧
    (indexDocument csCfg ovCfg backend ext d sid uid bytes name em st).2.chroma =
      st.chroma ∧
    (indexDocument csCfg ovCfg backend ext d sid uid bytes name em st).2.supa =
      st.supa := by
  unfold indexDocument
  rw [hextract]
  simp only [if_neg hne, hembed]
  refine ⟨?_, ?_, ?_, ?_, ?_⟩
  · trivial
  · exact jobGet_jobFail_stage ..
  · exact jobGet_jobFail_message ..
  · trivial
  · trivial

/-- Witness for C4: a one-sentence text file and an embedding provider
that raises "boom". -/
theorem indexDocument_embed_failure_witness :
    extractText wExt.pdfParse wExt.docxParse [104, 105, 46] "a.txt" =
      .ok "hi." ∧
    pyStrip "hi." ≠ "" ∧
    wExt.embed (splitText 850 150 "hi.") = .error "boom" ∧
    (indexDocument 850 150 "chroma" wExt "doc-w4" none none [104, 105, 46]
        "a.txt" none wState).1 = .error "boom" ∧
    (jobGet (indexDocument 850 150 "chroma" wExt "doc-w4" none none
        [104, 105, 46] "a.txt" none wState).2.jobs "doc-w4").message =
      some ("Tạo embedding thất bại: " ++ "boom") ∧
    (indexDocument 850 150 "chroma" wExt "doc-w4" none none [104, 105, 46]
        "a.txt" none wState).2.chroma = wState.chroma := by
  have h := indexDocument_embed_failure 850 150 "chroma" wExt "doc-w4" none none
    [104, 105, 46] "a.txt" none wState "hi." "boom" (by decide) (by decide) rfl
  exact ⟨by decide, by decide, rfl, h.1, h.2.2.1, h.2.2.2.1⟩

/-! ## C1 -/

/-- Counterexample to C1: `_extract_text` dispatches `.pdf` names straight
to `_extract_pdf`, whose `PdfReader(BytesIO(file_bytes))` call is outside
any `try`; on bytes that are not a PDF (here: the empty byte string) pypdf
raises `PdfReadError("EOF marker not found")` and `_extract_text`
propagates it instead of returning `""`. -/
theorem extractText_raises_on_bad_pdf :
    extractText pypdfOnGarbage docxOnGarbage [] "broken.pdf" =
      .error "EOF marker not found" ∧
    extractText pypdfOnGarbage docxOnGarbage [] "broken.pdf" ≠ .ok "" := by
  refine ⟨rfl, ?_⟩
  decide

/-- C1 amended: for every byte sequence and every file name that does not
end in ".pdf" or ".docx" (case-insensitively), `_extract_text` never
raises and returns the ignore-errors UTF-8 decode of the bytes (the empty
string when nothing is decodable); for `.pdf`/`.docx` names the underlying
parser's exceptions propagate (only per-page PDF extraction failures are
suppressed). -/
theorem extractText_total_on_text_names
    (pdfParse : List Nat → Except String (List (Except Unit (Option String))))
    (docxParse : List Nat → Except String (List String))
    (bytes : List Nat) (name : String)
    (hpdf : pyEndsWith (pyLower name) ".pdf" = false)
    (hdocx : pyEndsWith (pyLower name) ".docx" = false) :
    extractText pdfParse docxParse bytes name =
      .ok (String.mk (utf8DecodeIgnore bytes)) := by
  simp [extractText, hpdf, hdocx]

/-- Witness for the amended C1 at a concrete input: bytes of "hi" with
name "notes.txt". -/
theorem extractText_total_on_text_names_witness :
    pyEndsWith (pyLower "notes.txt") ".pdf" = false ∧
    pyEndsWith (pyLower "notes.txt") ".docx" = false ∧
    extractText pypdfOnGarbage docxOnGarbage [104, 105] "notes.txt" =
      .ok (String.mk (utf8DecodeIgnore [104, 105])) :=
  ⟨by decide, by decide,
    extractText_total_on_text_names pypdfOnGarbage docxOnGarbage [104, 105]
      "notes.txt" (by decide) (by decide)⟩

/-! ## C8 -/

/-- C8: `_maybe_rerank` is total (it returns a plain list for every
outcome of the external model construction and scoring — the whole body is
wrapped in `try/except`), and whenever re-ranking is disabled or anything
inside the `try` raises, it returns the candidates truncated to `top_k`
in their original order. -/
theorem maybeRerank_fallback (loadModel : Except String Unit)
    (predict : List (String × PyVal) → Except String (List ℚ))
    (rerankEnabled : Bool) (query : String) (outs : List PyVal) (topK : Int)
    (h : rerankEnabled = false ∨
      (maybeRerankCore loadModel predict rerankEnabled query outs topK).isOk =
        false) :
    maybeRerank loadModel predict rerankEnabled query outs topK =
      pyTake outs topK := by
  rcases h with he | he
  · subst he
    unfold maybeRerank maybeRerankCore
    simp
  · unfold maybeRerank
    cases hcore : maybeRerankCore loadModel predict rerankEnabled query outs topK with
    | ok r => rw [hcore] at he; simp [Except.isOk, Except.toBool] at he
    | error e => rfl

/-- Witness for C8: re-ranking disabled on two concrete candidates. -/
theorem maybeRerank_fallback_witness :
    ((false : Bool) = false ∨
      (maybeRerankCore (.ok ()) (fun _ => .ok []) false "q"
          [PyVal.str "a", PyVal.str "b"] 1).isOk = false) ∧
    maybeRerank (.ok ()) (fun _ => .ok []) false "q"
        [PyVal.str "a", PyVal.str "b"] 1 =
      pyTake [PyVal.str "a", PyVal.str "b"] 1 :=
  ⟨Or.inl rfl,
    maybeRerank_fallback (.ok ()) (fun _ => .ok []) false "q"
      [PyVal.str "a", PyVal.str "b"] 1 (Or.inl rfl)⟩

/-! ## C9 -/

/-- C9: with `llm_provider = "none"`, `answer` returns the extractive
fallback — the fixed prefacing note followed by the first two contexts
joined by a blank line — and the result does not depend on any credential
or remote-call outcome, so any two calls with identical query and contexts
return identical strings. -/
theorem answer_none_provider_extractive (k1 g1 k2 g2 : Option String)
    (oc1 gc1 ol1 oc2 gc2 ol2 : String → Except String (Option String))
    (q : String) (ctxs : List String) :
    answer (some "none") k1 g1 oc1 gc1 ol1 q ctxs =
      "(Không có LLM cục bộ; trả lời theo ngữ cảnh gần nhất)\n\n" ++
        String.intercalate "\n\n" (pyTake ctxs 2) ∧
    answer (some "none") k1 g1 oc1 gc1 ol1 q ctxs =
      answer (some "none") k2 g2 oc2 gc2 ol2 q ctxs :=
  ⟨rfl, rfl⟩

/-! ## C7 -/

instance : IsTotal SupaRow rowLE := ⟨fun a b => Int.le_total a.chunk_index b.chunk_index⟩

instance : IsTrans SupaRow rowLE := ⟨fun _ _ _ hab hbc => le_trans hab hbc⟩

def c7row0 : SupaRow := { document_id := some "d", chunk_index := 0, content := some "A" }

def c7row1 : SupaRow := { document_id := some "d", chunk_index := 1, content := some "B" }

def c7table : List SupaRow := [c7row0, c7row1]

/-- Counterexample to C7: `get_chunks_by_document` caps its result at the
`limit` parameter (clamped to [1, 500]); with `limit = 1` a document that
has two stored chunks gets only its first chunk back, not all of them. -/
theorem getChunksByDocument_not_all :
    getChunksByDocument c7table false "d" 1 = ["A"] ∧
    (c7table.filter fun r => r.document_id = some (pyStrip "d")).length = 2 := by
  constructor <;> rfl

/-- The non-empty-string content filter of `get_chunks_by_document`
degenerates to plain content extraction when every row has non-blank
string content. -/
lemma filterMap_content_eq_map (l : List SupaRow)
    (h : ∀ r ∈ l, r.content ≠ none ∧ pyStrip (r.content.getD "") ≠ "") :
    (l.filterMap fun r =>
      match r.content with
      | some c => if pyStrip c ≠ "" then some c else none
      | none => none) =
    l.map fun r => r.content.getD "" := by
  induction l with
  | nil => rfl
  | cons a t ih =>
    obtain ⟨hne, hs⟩ := h a (List.mem_cons_self a t)
    obtain ⟨c, hc⟩ := Option.ne_none_iff_exists'.mp hne
    rw [List.filterMap_cons, List.map_cons]
    rw [hc] at hs ⊢
    simp only [Option.getD_some] at hs
    simp only [hs, if_true, ne_eq, not_false_iff, Option.getD_some]
    rw [ih fun r hr => h r (List.mem_cons_of_mem a hr)]

/-- C7 amended: `get_chunks_by_document` returns the chunk contents of the
requested document ordered by `chunk_index` ascending, truncated to at
most `max(1, min(limit, 500))` rows and dropping rows whose content is not
a non-blank string; when the document has at most that many rows, all with
non-blank content, this is exactly all of its stored chunks in ascending
`chunk_index` order (no similarity ranking is involved: the result is a
sorted permutation of the matching rows). -/
theorem getChunksByDocument_sorted_all (tbl : List SupaRow)
    (documentId : String) (limit : Int)
    (hdid : pyStrip documentId ≠ "")
    (hcount : (tbl.filter fun r =>
        r.document_id = some (pyStrip documentId)).length ≤ clampLimit limit)
    (hcontent : ∀ r ∈ tbl.filter (fun r =>
        r.document_id = some (pyStrip documentId)),
      r.content ≠ none ∧ pyStrip (r.content.getD "") ≠ "") :
    getChunksByDocument tbl false documentId limit =
      (sortByChunkIndex (tbl.filter fun r =>
        r.document_id = some (pyStrip documentId))).map
        (fun r => r.content.getD "") ∧
    (sortByChunkIndex (tbl.filter fun r =>
        r.document_id = some (pyStrip documentId))).Perm
      (tbl.filter fun r => r.document_id = some (pyStrip documentId)) ∧
    List.Sorted rowLE (sortByChunkIndex (tbl.filter fun r =>
        r.document_id = some (pyStrip documentId))) := by
  have hperm := List.perm_insertionSort rowLE
    (tbl.filter fun r => r.document_id = some (pyStrip documentId))
  refine ⟨?_, hperm, List.sorted_insertionSort rowLE _⟩
  unfold getChunksByDocument sortByChunkIndex
  rw [if_neg hdid]
  dsimp only
  simp only [Bool.false_eq_true, if_false]
  rw [List.take_of_length_le (by rw [hperm.length_eq]; exact hcount)]
  exact filterMap_content_eq_map _ fun r hr => hcontent r (hperm.mem_iff.mp hr)

/-- Witness for the amended C7: both rows of the two-chunk document come
back, in `chunk_index` order, under the default limit 100. -/
theorem getChunksByDocument_sorted_all_witness :
    pyStrip "d" ≠ "" ∧
    (c7table.filter fun r =>
      r.document_id = some (pyStrip "d")).length ≤ clampLimit 100 ∧
    (∀ r ∈ c7table.filter (fun r => r.document_id = some (pyStrip "d")),
      r.content ≠ none ∧ pyStrip (r.content.getD "") ≠ "") ∧
    getChunksByDocument c7table false "d" 100 =
      (sortByChunkIndex (c7table.filter fun r =>
        r.document_id = some (pyStrip "d"))).map (fun r => r.content.getD "") :=
  ⟨by decide, by decide, by decide,
    (getChunksByDocument_sorted_all c7table "d" 100 (by decide) (by decide)
      (by decide)).1⟩

/-! ## C2 -/

def c2text : String :=
  String.mk (List.replicate 149 'a') ++ ". " ++
  String.mk (List.replicate 149 'b') ++ ". " ++
  String.mk (List.replicate 40 'c')

set_option maxRecDepth 40000 in
/-- Counterexample to C2: with `chunk_size = 200` and `overlap = 100`,
three sentences of lengths 150, 150 and 40 (none longer than the
effective chunk size 200) produce a second chunk of length 292: the `else`
branch of the packing loop resets `current_len` to `len(sent)` even though
`flush_with_overlap` has just seeded `current` with the 100-character
overlap text, so the tracked length undercounts and later sentences are
packed past the bound. -/
theorem splitText_chunk_exceeds_chunk_size :
    effChunkSize 200 = 200 ∧
    (sentencesOf (cleanText c2text)).map String.length = [150, 150, 40] ∧
    (splitText 200 100 c2text).map String.length = [150, 292] ∧
    ((splitText 200 100 c2text).any fun c =>
      decide (effChunkSize 200 < c.length)) = true := by
  refine ⟨rfl, ?_, ?_, ?_⟩ <;> rfl

/-- Length of `dropWhile` never exceeds the input length. -/
lemma dropWhile_length_le (p : Char → Bool) (l : List Char) :
    (l.dropWhile p).length ≤ l.length := by
  induction l with
  | nil => simp [List.dropWhile]
  | cons a t ih =>
    by_cases h : p a = true
    · simp only [List.dropWhile, h]
      exact le_trans ih (by simp)
    · simp [List.dropWhile, h]

lemma pyStrip_length_le (s : String) : (pyStrip s).length ≤ s.length := by
  show (pyStripList s.data).length ≤ s.data.length
  unfold pyStripList
  rw [List.length_reverse]
  refine le_trans (dropWhile_length_le _ _) ?_
  rw [List.length_reverse]
  exact dropWhile_length_le _ _

lemma pyTakeRight_length_le (s : String) (n : Nat) :
    (pyTakeRight s n).length ≤ n := by
  show (s.data.drop (s.data.length - n)).length ≤ n
  rw [List.length_drop]
  omega

lemma joinSpace_append_singleton (l : List String) (s : String) :
    joinSpace (l ++ [s]) = if l = [] then s else joinSpace l ++ " " ++ s := by
  induction l with
  | nil => rfl
  | cons a t ih =>
    cases t with
    | nil => simp [joinSpace]
    | cons b u =>
      rw [show (a :: b :: u) ++ [s] = a :: ((b :: u) ++ [s]) from rfl]
      rw [show joinSpace (a :: ((b :: u) ++ [s])) =
        a ++ " " ++ joinSpace ((b :: u) ++ [s]) from rfl]
      rw [ih]
      rw [if_neg (by simp), if_neg (by simp)]
      rw [show joinSpace (a :: b :: u) = a ++ " " ++ joinSpace (b :: u) from rfl]
      simp [String.append_assoc]

lemma joinSpace_length_append (l : List String) (s : String) :
    (joinSpace (l ++ [s])).length =
      if l = [] then s.length else (joinSpace l).length + 1 + s.length := by
  rw [joinSpace_append_singleton]
  by_cases h : l = []
  · rw [if_pos h, if_pos h]
  · rw [if_neg h, if_neg h, String.length_append, String.length_append]
    rfl

/-- Loop invariant of `_split_text`'s packing loop, for effective sizes
`CS` and `OV`: every emitted chunk fits in `CS + OV + 1`; the joined
buffer is never more than `OV + 1` characters longer than the tracked
`current_len` (the tracked length forgets the overlap seed and one join
space); the tracked length itself is at most `CS`. -/
def chunkInv (CS OV : Nat) (st : SplitState) : Prop :=
  (∀ c ∈ st.chunks, c.length ≤ CS + OV + 1) ∧
  (joinSpace st.current).length ≤ st.currentLen + OV + 1 ∧
  st.currentLen ≤ CS

lemma flushWithOverlap_inv (CS OV : Nat) (st : SplitState)
    (h : chunkInv CS OV st) :
    (∀ c ∈ (flushWithOverlap OV st).chunks, c.length ≤ CS + OV + 1) ∧
    ((flushWithOverlap OV st).current = [] ∨
      ∃ k, (flushWithOverlap OV st).current = [k] ∧ k.length ≤ OV) := by
  obtain ⟨hchunks, hjoin, hlen⟩ := h
  unfold flushWithOverlap
  by_cases hcur : st.current = []
  · rw [if_pos hcur]
    exact ⟨hchunks, Or.inl hcur⟩
  · rw [if_neg hcur]
    dsimp only
    have hchunklen : (pyStrip (joinSpace st.current)).length ≤ CS + OV + 1 :=
      le_trans (pyStrip_length_le _) (le_trans hjoin (by omega))
    have hchunks' : ∀ c ∈ (if pyStrip (joinSpace st.current) ≠ "" then
        st.chunks ++ [pyStrip (joinSpace st.current)] else st.chunks),
        c.length ≤ CS + OV + 1 := by
      intro c hc
      by_cases hne : pyStrip (joinSpace st.current) ≠ ""
      · rw [if_pos hne] at hc
        rcases List.mem_append.mp hc with hm | hm
        · exact hchunks c hm
        · rw [List.mem_singleton.mp hm]
          exact hchunklen
      · rw [if_neg hne] at hc
        exact hchunks c hc
    by_cases hov : 0 < OV ∧ (if pyStrip (joinSpace st.current) ≠ "" then
        st.chunks ++ [pyStrip (joinSpace st.current)] else st.chunks) ≠ []
    · rw [if_pos hov]
      exact ⟨hchunks', Or.inr ⟨_, rfl, pyTakeRight_length_le _ _⟩⟩
    · rw [if_neg hov]
      exact ⟨hchunks', Or.inl rfl⟩

lemma packSentence_inv (CS OV : Nat) (st : SplitState) (sent : String)
    (hs : sent.length ≤ CS) (h : chunkInv CS OV st) :
    chunkInv CS OV (packSentence CS OV st sent) := by
  obtain ⟨hchunks, hjoin, hlen⟩ := h
  unfold packSentence
  by_cases hfit : st.currentLen + sent.length + 1 ≤ CS
  · rw [if_pos hfit]
    refine ⟨hchunks, ?_, hfit⟩
    dsimp only
    rw [joinSpace_length_append]
    by_cases hc : st.current = []
    · rw [if_pos hc]; omega
    · rw [if_neg hc]; omega
  · rw [if_neg hfit]
    dsimp only
    obtain ⟨hch', hcur'⟩ := flushWithOverlap_inv CS OV st ⟨hchunks, hjoin, hlen⟩
    refine ⟨hch', ?_, hs⟩
    rcases hcur' with hnil | ⟨k, hk, hklen⟩
    · rw [hnil]
      dsimp only
      simp only [List.nil_append]
      rw [show joinSpace [sent] = sent from rfl]
      omega
    · rw [hk]
      dsimp only
      rw [joinSpace_length_append]
      rw [if_neg (by simp)]
      rw [show joinSpace [k] = k from rfl]
      omega

lemma foldl_packSentence_inv (CS OV : Nat) (sentences : List String)
    (st : SplitState) (hs : ∀ s ∈ sentences, s.length ≤ CS)
    (h : chunkInv CS OV st) :
    chunkInv CS OV (sentences.foldl (packSentence CS OV) st) := by
  induction sentences generalizing st with
  | nil => exact h
  | cons a t ih =>
    exact ih _ (fun s hmem => hs s (List.mem_cons_of_mem a hmem))
      (packSentence_inv CS OV st a (hs a (List.mem_cons_self a t)) h)

/-- C2 amended: when no sentence exceeds the effective chunk size
`max(200, chunk_size)`, every chunk `_split_text` returns has length at
most `effective chunk_size + effective overlap + 1` (not `chunk_size`
itself: the packing loop forgets the overlap seed and one join space when
it resets `current_len` after a flush). -/
theorem splitText_chunk_length_bound (csCfg ovCfg : Int) (text : String)
    (h : ∀ s ∈ sentencesOf (cleanText text), s.length ≤ effChunkSize csCfg) :
    ∀ c ∈ splitText csCfg ovCfg text,
      c.length ≤ effChunkSize csCfg + effOverlap csCfg ovCfg + 1 := by
  intro c hc
  unfold splitText at hc
  by_cases hclean : cleanText text = ""
  · rw [if_pos hclean] at hc
    cases hc
  · rw [if_neg hclean] at hc
    dsimp only at hc
    have hinit : chunkInv (effChunkSize csCfg) (effOverlap csCfg ovCfg)
        ⟨[], [], 0⟩ := by
      refine ⟨fun c hmem => absurd hmem (List.not_mem_nil c), ?_, Nat.zero_le _⟩
      rw [show joinSpace [] = "" from rfl]
      simp
    have hinv := foldl_packSentence_inv (effChunkSize csCfg)
      (effOverlap csCfg ovCfg) (sentencesOf (cleanText text)) ⟨[], [], 0⟩ h hinit
    have hfl := flushWithOverlap_inv (effChunkSize csCfg)
      (effOverlap csCfg ovCfg) _ hinv
    split at hc
    · rw [List.mem_singleton.mp hc]
      show (List.take (effChunkSize csCfg) (cleanText text).data).length ≤ _
      rw [List.length_take]
      omega
    · exact hfl.1 c hc

/-- Witness for the amended C2 at a concrete input. -/
theorem splitText_chunk_length_bound_witness :
    (∀ s ∈ sentencesOf (cleanText "Hi there. Ok."),
      s.length ≤ effChunkSize 850) ∧
    ∀ c ∈ splitText 850 150 "Hi there. Ok.",
      c.length ≤ effChunkSize 850 + effOverlap 850 150 + 1 :=
  ⟨by decide, splitText_chunk_length_bound 850 150 "Hi there. Ok." (by decide)⟩

end StudentDocs
